import Mathlib

/-!
Verification development for the task-dispatch and worker-lifecycle core of a
distributed task-processing system (Go sources: internal/task/task.go,
internal/task/scheduler.go, internal/worker/worker.go, plus the coordinator,
work stealer, autoscaler and HTTP submission handler).

The shared Redis store is embedded shallowly: hashes and per-worker buckets
become association lists keyed by strings, sorted sets become lists of
(score, member) pairs, timestamps are integers at one-second granularity
(the granularity at which the Go code compares them), and serialization is
the identity (queue and bucket members are stored as the record itself,
which is faithful because JSON encoding of distinct records is distinct).
Store operations are modelled without transport failures: every Redis call
returns without a network error, which is the run the specification speaks
about.
-/

set_option autoImplicit false

namespace DTPS

/-- Status enumeration from internal/task/task.go. -/
inductive Status where
  | pending
  | assigned
  | processing
  | completed
  | failed
  | retrying
  deriving Repr, DecidableEq

/-- Task record from internal/task/task.go. Times are unix seconds;
nextRetryAt = 0 plays the role of Go's zero time.Time. -/
structure Task where
  id : String
  type : String
  payload : String
  status : Status
  priority : Int
  complexityScore : Int
  dependencies : List String
  retryCount : Int
  maxRetries : Int
  deadline : Option Int
  nextRetryAt : Int
  createdAt : Int
  updatedAt : Int
  workerID : String
  deriving Repr, DecidableEq

/-- Result record from internal/task/task.go. -/
structure Result where
  taskID : String
  status : Status
  output : String
  error : String
  startTime : Int
  endTime : Int
  retryCount : Int
  workerID : String
  deriving Repr, DecidableEq

/-- ScheduleOptions from internal/task/scheduler.go. -/
structure ScheduleOptions where
  priority : Int
  deadline : Option Int
  maxRetries : Int
  dependencies : List String
  deriving Repr, DecidableEq

/-! Association-list embedding of Redis hashes (HGet / HSet / HDel / HExists)
and of Redis sets (SAdd / SMembers). Keys are strings. -/

/-- Redis HGET on a hash embedded as an association list. -/
def hGet {α : Type} : List (String × α) → String → Option α
  | [], _ => none
  | (k', v) :: rest, k => if k' = k then some v else hGet rest k

/-- Redis HEXISTS. -/
def hContains {α : Type} (m : List (String × α)) (k : String) : Bool :=
  (hGet m k).isSome

/-- Redis HSET: overwrite the binding for the key, or append a new one. -/
def hSet {α : Type} : List (String × α) → String → α → List (String × α)
  | [], k, v => [(k, v)]
  | (k', v') :: rest, k, v =>
      if k' = k then (k, v) :: rest else (k', v') :: hSet rest k v

/-- Redis HDEL of one field. -/
def hDel {α : Type} : List (String × α) → String → List (String × α)
  | [], _ => []
  | (k', v') :: rest, k =>
      if k' = k then hDel rest k else (k', v') :: hDel rest k

/-- Redis HSETNX: create the field only if absent; the boolean reports
whether the field was created. -/
def hSetNX {α : Type} (m : List (String × α)) (k : String) (v : α) :
    List (String × α) × Bool :=
  if hContains m k then (m, false) else (m ++ [(k, v)], true)

/-- Redis SADD on a family of sets keyed by string. -/
def sAdd (m : List (String × List String)) (k mem : String) :
    List (String × List String) :=
  match hGet m k with
  | none => hSet m k [mem]
  | some s => if s.contains mem then m else hSet m k (mem :: s)

/-- Redis SMEMBERS, empty when the key is absent. -/
def sMembers (m : List (String × List String)) (k : String) : List String :=
  (hGet m k).getD []

/-- The shared-store key space (section 3.3 of the design): priority queues
tasks:priority:p, the waiting and dependency hashes, the workers heartbeat
hash, per-worker tasks / processing / results buckets, the global results
and failed_tasks hashes, and the plain list named tasks that the list-based
coordinator uses. Queue entries carry their priority inline as
(priority, score, member). -/
structure Store where
  queues : List (Int × Int × Task)
  tasksList : List Task
  waiting : List (String × Task)
  depWaiters : List (String × List String)
  workers : List (String × Int)
  inboxes : List (String × List (String × Task))
  processing : List (String × List (String × Task))
  outboxes : List (String × List (String × Result))
  results : List (String × Result)
  failed : List (String × Result)
  deriving Repr, DecidableEq

/-- Queue-score computation inside Scheduler.ScheduleTask
(internal/task/scheduler.go lines 59-68): score starts at the current unix
time; with a deadline, subtract 1000000 when the remaining time is negative,
otherwise subtract the remaining seconds. -/
def scoreOf (now : Int) (deadline : Option Int) : Int :=
  match deadline with
  | none => now
  | some d =>
      let remaining := d - now
      if remaining < 0 then now - 1000000 else now - remaining

/-- ScheduleTask first overwrites the task metadata from the options
(internal/task/scheduler.go lines 30-36): priority and maxRetries and
dependencies unconditionally, deadline only when the option is present. -/
def applyOpts (t : Task) (opts : ScheduleOptions) : Task :=
  { t with
    priority := opts.priority
    deadline := match opts.deadline with
      | some d => some d
      | none => t.deadline
    maxRetries := opts.maxRetries
    dependencies := opts.dependencies }

/-- Scheduler.scheduleDependentTask (lines 82-111): store the task under
tasks:waiting:id and SADD its id under tasks:dependencies:d for every
dependency d (all of them, not only the unmet ones). -/
def scheduleDependentTask (s : Store) (t : Task) : Store :=
  { s with
    waiting := hSet s.waiting t.id t
    depWaiters := t.dependencies.foldl (fun dw d => sAdd dw d t.id) s.depWaiters }

/-- Scheduler.ScheduleTask (lines 29-80). The Go loop checks the
dependencies in order against the results hash and branches to
scheduleDependentTask at the first missing one; the effect equals branching
when any dependency is missing, since scheduleDependentTask does not depend
on which dependency was missing. Otherwise ZADD the task into
tasks:priority:p with the computed score. -/
def scheduleTask (now : Int) (s : Store) (t0 : Task) (opts : ScheduleOptions) : Store :=
  let t := applyOpts t0 opts
  if t.dependencies.any (fun d => !(hContains s.results d)) then
    scheduleDependentTask s t
  else
    { s with queues := (t.priority, scoreOf now t.deadline, t) :: s.queues }

/-- Inner loop of Scheduler.OnTaskComplete (lines 146-182): for each waiter
id, fetch it from the waiting hash, re-check all of its dependencies against
the results hash, and when all are present delete the waiting entry and
re-schedule it with options that carry no dependencies (Go passes
ScheduleOptions without the Dependencies field, so the rescheduled task has
its dependency list cleared). -/
def releaseWaiters (now : Int) : List String → Store → Store
  | [], s => s
  | depTaskID :: rest, s =>
      let s' :=
        match hGet s.waiting depTaskID with
        | none => s
        | some t =>
            if t.dependencies.all (fun d => hContains s.results d) then
              let s1 := { s with waiting := hDel s.waiting depTaskID }
              scheduleTask now s1 t
                { priority := t.priority, deadline := t.deadline,
                  maxRetries := t.maxRetries, dependencies := [] }
            else s
      releaseWaiters now rest s'

/-- Scheduler.OnTaskComplete (lines 136-187): walk the waiters recorded
under tasks:dependencies:taskID, then delete that dependency-tracking key. -/
def onTaskComplete (now : Int) (s : Store) (taskID : String) : Store :=
  let s' := releaseWaiters now (sMembers s.depWaiters taskID) s
  { s' with depWaiters := hDel s'.depWaiters taskID }

/-- Scheduler.RetryTask (lines 189-207): refuse when retryCount has reached
maxRetries; otherwise increment the count, set status pending, stamp
updatedAt, set nextRetryAt to now plus 2 to the power of the incremented
count in seconds (Go: 1 shifted left by the already-incremented RetryCount),
and hand the task to ScheduleTask with options carrying no dependencies.
Returns the mutated task together with the new store, mirroring Go's
in-place mutation of the task pointer. -/
def retryTask (now : Int) (s : Store) (t : Task) : Except String (Task × Store) :=
  if t.retryCount ≥ t.maxRetries then
    Except.error "max retries exceeded"
  else
    let t1 := { t with
      retryCount := t.retryCount + 1
      status := Status.pending
      updatedAt := now }
    let t2 := { t1 with nextRetryAt := now + 2 ^ (t1.retryCount.toNat) }
    let opts : ScheduleOptions :=
      { priority := t2.priority, deadline := t2.deadline,
        maxRetries := t2.maxRetries, dependencies := [] }
    Except.ok (applyOpts t2 opts, scheduleTask now s t2 opts)

/-! Coordinator embedding (the priority-queue coordinator: package
coordinator with cleanup / distributeWork / collectResults / monitorWorkers
over tasks:priority:p queues). The in-process liveness view (the sync.Map
named workers) is the live field next to the store. -/

/-- Coordinator process state: the in-process live-worker view plus the
shared store. -/
structure CoordState where
  live : List String
  store : Store
  deriving Repr, DecidableEq

/-- One tick of Coordinator.monitorWorkers (priority-queue coordinator,
lines 199-237): HGETALL workers, then for each entry either refresh the
in-process live view (heartbeat within 30 seconds) or: drop the id from the
live view and from the workers hash, RPUSH every value of the
worker:id:tasks bucket onto the plain list named tasks, and DEL the
worker:id:tasks and worker:id:results buckets. The worker:id:processing
bucket and the priority queues are not touched on this path. -/
def monitorTick (now : Int) (c : CoordState) : CoordState :=
  c.store.workers.foldl
    (fun acc entry =>
      let wid := entry.1
      if now - entry.2 ≤ 30 then
        { acc with live := if acc.live.contains wid then acc.live else wid :: acc.live }
      else
        let inboxVals := ((hGet acc.store.inboxes wid).getD []).map (fun e => e.2)
        { live := acc.live.filter (fun x => x ≠ wid),
          store := { acc.store with
            workers := hDel acc.store.workers wid
            tasksList := acc.store.tasksList ++ inboxVals
            inboxes := hDel acc.store.inboxes wid
            outboxes := hDel acc.store.outboxes wid } })
    c

/-- Redis HDEL of one field inside a per-worker bucket. -/
def hDelIn {α : Type} (m : List (String × List (String × α))) (k field : String) :
    List (String × List (String × α)) :=
  match hGet m k with
  | none => m
  | some b => hSet m k (hDel b field)

/-- One tick of Coordinator.collectResults (priority-queue coordinator,
lines 172-197): for each live worker, HGETALL its worker:id:results bucket
and, for every (taskID, result) pair, HSET it into the global results hash
and HDEL it from the bucket. There is no routing to failed_tasks and no
call into the scheduler. -/
def collectResultsTick (c : CoordState) : CoordState :=
  c.live.foldl
    (fun acc wid =>
      let outbox := (hGet acc.store.outboxes wid).getD []
      let store' := outbox.foldl
        (fun st e =>
          { st with
            results := hSet st.results e.1 e.2
            outboxes := hDelIn st.outboxes wid e.1 })
        acc.store
      { acc with store := store' })
    c

/-! Worker embedding (internal/worker/worker.go, the reference worker the
HTTP control plane starts). -/

/-- Task.ShouldProcess (internal/task/task.go lines 101-106): eligible when
nextRetryAt is the zero time, or when now is after nextRetryAt. -/
def shouldProcess (now : Int) (t : Task) : Bool :=
  if t.nextRetryAt = 0 then true else decide (t.nextRetryAt < now)

/-- Task.CanRetry (internal/task/task.go lines 97-99). -/
def canRetry (t : Task) : Bool :=
  decide (t.retryCount < t.maxRetries)

/-- One executor iteration of Worker.processTask
(internal/worker/worker.go lines 196-247) on a received task: mark the task
processing and HSET it into worker:id:processing, sleep complexityScore
seconds (the execution stub - so endTime is startTime plus complexityScore),
build the result record with the worker's id and status completed, HDEL the
task from worker:id:processing, and emit the result on the results channel.
The returned pair is (processing bucket after the iteration, emitted
result). Nothing on this path consults nextRetryAt and there is no failure
outcome. -/
def processTaskStep (wid : String) (now : Int)
    (processing : List (String × Task)) (t : Task) :
    List (String × Task) × Result :=
  let tP := { t with status := Status.processing }
  let procMid := hSet processing t.id tP
  let res : Result :=
    { taskID := t.id
      status := Status.completed
      output := ""
      error := ""
      startTime := now
      endTime := now + t.complexityScore
      retryCount := 0
      workerID := wid }
  (hDel procMid t.id, res)

/-! Work stealer embedding (package worker, WorkStealer). -/

/-- Loop body of WorkStealer.stealTasks (lines 520-537) over the snapshot of
the source inbox: stop once stolen reaches stealCount; otherwise HSETNX the
entry into the stealer's own inbox and - because the Go code tests only the
transport error of HSETNX, which is nil whether or not the field was created
- always HDEL the entry from the source inbox and count it as stolen. -/
def stealLoop (stealCount : Nat) :
    List (String × Task) → List (String × Task) → List (String × Task) → Nat →
    List (String × Task) × List (String × Task)
  | [], own, src, _ => (own, src)
  | (tid, v) :: rest, own, src, stolen =>
      if stolen ≥ stealCount then (own, src)
      else
        let own' := (hSetNX own tid v).1
        stealLoop stealCount rest own' (hDel src tid) (stolen + 1)

/-- WorkStealer.stealTasks (lines 509-538): HGETALL the source inbox and try
to move half of its entries. -/
def stealTasks (own source : List (String × Task)) :
    List (String × Task) × List (String × Task) :=
  stealLoop (source.length / 2) source own source 0

/-- Per-sibling body of WorkStealer.attemptSteal (lines 480-507): steal only
from a sibling whose inbox holds more than 2 tasks. -/
def stealFrom (own source : List (String × Task)) :
    List (String × Task) × List (String × Task) :=
  if source.length > 2 then stealTasks own source else (own, source)

/-! Autoscaler embedding (package worker, AutoScaler.adjust, lines
389-427). Counts are naturals: the Go fields are int32 / int64 counters that
the program only ever moves between 0 and maxWorkers. -/

/-- AutoScaler configuration. -/
structure ScalerCfg where
  minWorkers : Nat
  maxWorkers : Nat
  deriving Repr, DecidableEq

/-- AutoScaler state: metrics snapshot (queueLength, activeWorkers,
idleWorkers), the occupancy of the workerPool channel (capacity maxWorkers),
and the time of the last scaling action. -/
structure ScalerState where
  queueLength : Nat
  active : Nat
  idle : Nat
  poolTokens : Nat
  lastScaling : Int
  deriving Repr, DecidableEq

/-- Scale-up send loop (lines 405-413): up to toAdd non-blocking sends into
the workerPool channel; each success increments ActiveWorkers, a full
channel aborts the loop. The boolean reports whether every send succeeded
(only then does Go reach the line that stamps lastScaling). -/
def sendUpTo (cap : Nat) : Nat → Nat → Nat → Nat × Nat × Bool
  | 0, tokens, active => (tokens, active, true)
  | n + 1, tokens, active =>
      if tokens < cap then sendUpTo cap n (tokens + 1) (active + 1)
      else (tokens, active, false)

/-- AutoScaler.adjust (lines 389-427): return untouched inside the 30-second
cooldown; scale up by min(maxWorkers - active, 2) executors when
queueLength exceeds twice the active count and active is below maxWorkers;
otherwise retire one executor (a non-blocking receive from the pool channel)
when idle exceeds minWorkers / 2 and active exceeds minWorkers. lastScaling
is stamped exactly where the Go code stamps it. -/
def adjust (cfg : ScalerCfg) (now : Int) (s : ScalerState) : ScalerState :=
  if now - s.lastScaling < 30 then s
  else if s.queueLength > s.active * 2 ∧ s.active < cfg.maxWorkers then
    let toAdd := min (cfg.maxWorkers - s.active) 2
    let r := sendUpTo cfg.maxWorkers toAdd s.poolTokens s.active
    if r.2.2 then
      { s with poolTokens := r.1, active := r.2.1, lastScaling := now }
    else
      { s with poolTokens := r.1, active := r.2.1 }
  else if s.idle > cfg.minWorkers / 2 ∧ s.active > cfg.minWorkers then
    if 0 < s.poolTokens then
      { s with poolTokens := s.poolTokens - 1, active := s.active - 1,
               lastScaling := now }
    else s
  else s

/-! HTTP submission embedding (package api, Server.handleSubmitTask, lines
167-211 of the control-plane server). -/

/-- Request body of POST /api/tasks/submit. -/
structure SubmitTaskRequest where
  priority : Int
  deadline : Option Int
  retries : Int
  taskType : String
  payload : String
  deriving Repr, DecidableEq

/-- Task record built by Server.handleSubmitTask via task.NewTask followed
by the field assignments in the handler (lines 180-191): status pending,
priority and maxRetries from the request, parsed deadline when present,
everything else at its zero value. -/
def mkSubmittedTask (now : Int) (newId : String) (req : SubmitTaskRequest) : Task :=
  { id := newId
    type := req.taskType
    payload := req.payload
    status := Status.pending
    priority := req.priority
    complexityScore := 0
    dependencies := []
    retryCount := 0
    maxRetries := req.retries
    deadline := req.deadline
    nextRetryAt := 0
    createdAt := now
    updatedAt := now
    workerID := "" }

/-- Server.handleSubmitTask enqueue step (lines 193-199): ZADD the task into
tasks:priority:p with score float64(time.Now().Unix()) - the bare submission
time, with no deadline adjustment. -/
def handleSubmitTask (now : Int) (newId : String) (s : Store)
    (req : SubmitTaskRequest) : Store :=
  { s with queues := (req.priority, now, mkSubmittedTask now newId req) :: s.queues }

/-- Modelled from the spec: the section 4.1 / 6.3 score encoding in the
spec's own words, for comparison with the handler above - score equals
nowSeconds minus a deadline urgency bonus, the bonus being 1000000 for an
already-passed deadline and the seconds until the deadline otherwise, zero
with no deadline. -/
def specSubmitScore (now : Int) (deadline : Option Int) : Int :=
  now - (match deadline with
    | none => 0
    | some d => if d < now then 1000000 else d - now)

/-- Entries of the priority queue p, as ZRANGE sees them (the member list of
tasks:priority:p). -/
def qEntries (s : Store) (p : Int) : List (Int × Task) :=
  (s.queues.filter (fun e => e.1 = p)).map (fun e => e.2)

/-- Head of a sorted set: the entry with the least score (leftmost among
equals), which ZRANGE 0 0 / ZPOPMIN would return first. -/
def zMinEntry : List (Int × Task) → Option (Int × Task)
  | [] => none
  | (sc, t) :: rest =>
      match zMinEntry rest with
      | none => some (sc, t)
      | some (sc', t') => if sc ≤ sc' then some (sc, t) else some (sc', t')

/-! Scheduler operation alphabet for the dependency-gate invariant: the four
mutators of the waiting / dependency / queue / results keys in the running
system - ScheduleTask, OnTaskComplete, RetryTask, and the coordinator's reap
write into the results hash. -/

/-- One scheduler-visible operation. -/
inductive SchedOp where
  | schedule (now : Int) (t : Task) (opts : ScheduleOptions)
  | complete (now : Int) (taskID : String)
  | retry (now : Int) (t : Task)
  | reap (taskID : String) (r : Result)

/-- Application of one operation to the store. A failed RetryTask leaves the
store untouched, as the Go function returns before any write. -/
def applySchedOp (op : SchedOp) (s : Store) : Store :=
  match op with
  | SchedOp.schedule now t opts => scheduleTask now s t opts
  | SchedOp.complete now taskID => onTaskComplete now s taskID
  | SchedOp.retry now t =>
      match retryTask now s t with
      | Except.ok r => r.2
      | Except.error _ => s
  | SchedOp.reap taskID r => { s with results := hSet s.results taskID r }

/-! Concrete sample data used to evaluate the model at explicit inputs. -/

/-- Baseline sample task. -/
def sampleTask : Task :=
  { id := "t1"
    type := "t"
    payload := "x"
    status := Status.pending
    priority := 5
    complexityScore := 2
    dependencies := []
    retryCount := 0
    maxRetries := 3
    deadline := none
    nextRetryAt := 0
    createdAt := 0
    updatedAt := 0
    workerID := "" }

/-- Empty shared store. -/
def emptyStore : Store :=
  { queues := []
    tasksList := []
    waiting := []
    depWaiters := []
    workers := []
    inboxes := []
    processing := []
    outboxes := []
    results := []
    failed := [] }

/-- Sample completed result for task t1, produced by worker w1. -/
def resC : Result :=
  { taskID := "t1"
    status := Status.completed
    output := ""
    error := ""
    startTime := 0
    endTime := 1
    retryCount := 0
    workerID := "w1" }

/-- Sample terminally failed result for task t3. -/
def resF : Result := { resC with taskID := "t3", status := Status.failed }

/-- Sample task t2 that depends on t1. -/
def task2dep : Task := { sampleTask with id := "t2", dependencies := ["t1"] }

/-- Coordinator state for the monitor-loop evaluation: worker w1 last
heartbeated at time 0, holds task t1 in its inbox and task t2 in its
processing bucket; every priority queue is empty. At time 100 the worker is
past the 30-second liveness gate. -/
def c1State : CoordState :=
  { live := ["w1"]
    store := { emptyStore with
      workers := [("w1", 0)]
      inboxes := [("w1", [("t1", sampleTask)])]
      processing := [("w1", [("t2", { sampleTask with id := "t2" })])] } }

/-- Coordinator state for the reap-loop evaluation: live worker w1 has a
completed result for t1 and a failed result for t3 in its outbox, while
task t2 is parked in the waiting hash on the dependency t1. -/
def c2State : CoordState :=
  { live := ["w1"]
    store := { emptyStore with
      outboxes := [("w1", [("t1", resC), ("t3", resF)])]
      waiting := [("t2", task2dep)]
      depWaiters := [("t1", ["t2"])] } }

/-- Task carried by the racing assignment in the steal evaluation (the same
id t1 with different bytes than the copy already held by the stealer). -/
def task1b : Task := { sampleTask with payload := "y" }

/-- Second and third tasks of the victim inbox in the steal evaluation. -/
def task2s : Task := { sampleTask with id := "t2" }

/-- Third task of the victim inbox in the steal evaluation. -/
def task3s : Task := { sampleTask with id := "t3" }

/-- Task whose nextRetryAt (time 1000) lies in the future of the
evaluation instant (time 50). -/
def tLate : Task := { sampleTask with nextRetryAt := 1000 }

/-- Task with one retry already consumed, for the retry evaluation. -/
def tRetry : Task := { sampleTask with retryCount := 1 }

/-- Task returned by RetryTask on tRetry at time 100: count incremented to
2, status pending, nextRetryAt = 100 + 2 to the power 2 = 104, and the
dependency list cleared by the ScheduleTask option overwrite. -/
def tRetryAfter : Task :=
  { tRetry with
    retryCount := 2
    status := Status.pending
    updatedAt := 100
    nextRetryAt := 104 }

/-- Store produced by that retry: the mutated task re-enqueued on the
priority-5 queue with score 100. -/
def sRetryAfter : Store := { emptyStore with queues := [(5, 100, tRetryAfter)] }

/-- Scheduler store for the dependency-gate witness: t2 waits on t1, whose
result is already present. -/
def sWait : Store :=
  { emptyStore with
    waiting := [("t2", task2dep)]
    depWaiters := [("t1", ["t2"])]
    results := [("t1", resC)] }

/-- Options with an unmet dependency, for the dependency-gate witness. -/
def optsDep : ScheduleOptions :=
  { priority := 4, deadline := none, maxRetries := 2, dependencies := ["a"] }

/-- Options for the deadline-order evaluation: priority 5, imminent deadline
(60 seconds after time 0). -/
def optsImm : ScheduleOptions :=
  { priority := 5, deadline := some 60, maxRetries := 0, dependencies := [] }

/-- Options for the deadline-order evaluation: priority 5, distant deadline
(3600 seconds after time 0). -/
def optsDist : ScheduleOptions :=
  { priority := 5, deadline := some 3600, maxRetries := 0, dependencies := [] }

/-- Queue contents after scheduling, at time 0, the imminent-deadline task
and then the distant-deadline task, both dependency-free at priority 5. -/
def storeC6 : Store :=
  scheduleTask 0 (scheduleTask 0 emptyStore { sampleTask with id := "imminent" } optsImm)
    { sampleTask with id := "distant" } optsDist

/-- HTTP submission request A: priority 5, deadline 60 seconds in the
future of its submission time 1000. -/
def reqA : SubmitTaskRequest :=
  { priority := 5, deadline := some 1060, retries := 0, taskType := "t", payload := "p" }

/-- HTTP submission request B: priority 5, deadline already one second
overdue at its submission time 1001. -/
def reqB : SubmitTaskRequest :=
  { priority := 5, deadline := some 999, retries := 0, taskType := "t", payload := "p" }

/-- Store after submitting A at time 1000 and then B at time 1001 through
the HTTP handler. -/
def storeC8 : Store :=
  handleSubmitTask 1001 "B" (handleSubmitTask 1000 "A" emptyStore reqA) reqB

/-- Autoscaler configuration for the witness evaluation. -/
def cfgSample : ScalerCfg := { minWorkers := 1, maxWorkers := 10 }

/-- Autoscaler state for the witness evaluation: 2 executors, matching pool
occupancy, deep queue, cooldown long expired. -/
def scalerSample : ScalerState :=
  { queueLength := 5, active := 2, idle := 0, poolTokens := 2, lastScaling := 0 }

/-! Helper lemmas about the store primitives. -/

/-- Lookup after HSET: the written key reads back the new value, every
other key is unchanged. -/
theorem hGet_hSet {α : Type} (m : List (String × α)) (k k' : String) (v : α) :
    hGet (hSet m k v) k' = if k = k' then some v else hGet m k' := by
  induction m with
  | nil => simp [hSet, hGet]
  | cons hd tl ih =>
      obtain ⟨a, b⟩ := hd
      simp only [hSet]
      by_cases hak : a = k
      · subst hak
        simp only [if_pos rfl, hGet]
        split_ifs <;> simp_all
      · simp only [if_neg hak, hGet, ih]
        split_ifs <;> simp_all

/-- Lookup after HDEL: the deleted key reads none, every other key is
unchanged. -/
theorem hGet_hDel {α : Type} (m : List (String × α)) (k k' : String) :
    hGet (hDel m k) k' = if k = k' then none else hGet m k' := by
  induction m with
  | nil => simp [hDel, hGet]
  | cons hd tl ih =>
      obtain ⟨a, b⟩ := hd
      simp only [hDel]
      by_cases hak : a = k
      · subst hak
        rw [if_pos rfl, ih]
        split_ifs with h1
        · rfl
        · simp [hGet, h1]
      · simp only [if_neg hak, hGet, ih]
        split_ifs <;> simp_all

/-- ScheduleTask never touches the results hash. -/
theorem scheduleTask_results (now : Int) (s : Store) (t : Task)
    (opts : ScheduleOptions) :
    (scheduleTask now s t opts).results = s.results := by
  dsimp only [scheduleTask]
  split <;> rfl

/-- ScheduleTask with no dependencies in the options leaves the waiting
hash unchanged (it takes the enqueue branch). -/
theorem scheduleTask_waiting_nil (now : Int) (s : Store) (t : Task)
    (opts : ScheduleOptions) (h : opts.dependencies = []) :
    (scheduleTask now s t opts).waiting = s.waiting := by
  dsimp only [scheduleTask, applyOpts]
  simp [h]

/-- Membership after SADD: the added member is in the set at its key. -/
theorem mem_sAdd_self (m : List (String × List String)) (k mem : String) :
    mem ∈ sMembers (sAdd m k mem) k := by
  unfold sAdd sMembers
  cases h : hGet m k with
  | none => simp [hGet_hSet]
  | some s =>
      show mem ∈ (hGet (if s.contains mem = true then m else hSet m k (mem :: s)) k).getD []
      by_cases hc : s.contains mem = true
      · rw [if_pos hc, h]
        simpa using hc
      · rw [if_neg hc, hGet_hSet, if_pos rfl]
        simp

/-- SADD preserves every existing membership, at every key. -/
theorem mem_sAdd_mono (m : List (String × List String)) (k k' mem mem' : String)
    (h : mem' ∈ sMembers m k') : mem' ∈ sMembers (sAdd m k mem) k' := by
  unfold sAdd
  cases hk : hGet m k with
  | none =>
      unfold sMembers at h ⊢
      rw [hGet_hSet]
      by_cases e : k = k'
      · subst e
        rw [hk] at h
        simp at h
      · rw [if_neg e]
        exact h
  | some s =>
      show mem' ∈ sMembers (if s.contains mem = true then m else hSet m k (mem :: s)) k'
      by_cases hc : s.contains mem = true
      · rw [if_pos hc]
        exact h
      · rw [if_neg hc]
        unfold sMembers at h ⊢
        rw [hGet_hSet]
        by_cases e : k = k'
        · subst e
          rw [if_pos rfl]
          rw [hk] at h
          simp only [Option.getD_some] at h
          simp [h]
        · rw [if_neg e]
          exact h

/-- Membership survives a fold of SADDs. -/
theorem foldl_sAdd_preserve (ds : List String)
    (m : List (String × List String)) (id d mem : String)
    (h : mem ∈ sMembers m d) :
    mem ∈ sMembers (ds.foldl (fun dw x => sAdd dw x id) m) d := by
  induction ds generalizing m with
  | nil => simpa using h
  | cons x rest ih => exact ih _ (mem_sAdd_mono _ _ _ _ _ h)

/-- After scheduleDependentTask's registration fold, the task id is recorded
under every one of its dependency keys. -/
theorem mem_foldl_sAdd (ds : List String) (m : List (String × List String))
    (id d : String) (hd : d ∈ ds) :
    id ∈ sMembers (ds.foldl (fun dw x => sAdd dw x id) m) d := by
  induction ds generalizing m with
  | nil => cases hd
  | cons x rest ih =>
      simp only [List.foldl]
      rcases List.mem_cons.mp hd with h1 | h1
      · subst h1
        exact foldl_sAdd_preserve rest _ id d id (mem_sAdd_self m d id)
      · exact ih _ h1

/-- Gate property of the OnTaskComplete release loop: whenever a task
leaves the waiting hash during the loop, every one of its recorded
dependencies was already present in the results hash (which the loop never
modifies). -/
theorem releaseWaiters_gate (now : Int) (ids : List String) :
    ∀ (s : Store) (id : String) (t : Task),
      hGet s.waiting id = some t →
      hGet (releaseWaiters now ids s).waiting id = none →
      t.dependencies.all (fun d => hContains s.results d) = true := by
  induction ids with
  | nil =>
      intro s id t hin hout
      simp only [releaseWaiters] at hout
      rw [hin] at hout
      cases hout
  | cons w rest ih =>
      intro s id t hin hout
      simp only [releaseWaiters] at hout
      split at hout
      · exact ih s id t hin hout
      · rename_i tw heq
        split at hout
        · rename_i hall
          by_cases hidw : id = w
          · subst hidw
            rw [hin] at heq
            injection heq with htw
            subst htw
            exact hall
          · have hin' : hGet (scheduleTask now
                { s with waiting := hDel s.waiting w } tw
                { priority := tw.priority, deadline := tw.deadline,
                  maxRetries := tw.maxRetries, dependencies := [] }).waiting id
                = some t := by
              rw [scheduleTask_waiting_nil _ _ _ _ rfl]
              show hGet (hDel s.waiting w) id = some t
              rw [hGet_hDel, if_neg (fun h => hidw h.symm)]
              exact hin
            have hres := ih _ id t hin' hout
            rwa [scheduleTask_results] at hres
        · rename_i hall
          exact ih s id t hin hout

/-- The scale-up send loop succeeds completely when the channel has room
for every requested token, moving tokens and the active count up together. -/
theorem sendUpTo_eq (cap : Nat) (n : Nat) :
    ∀ (tokens active : Nat), tokens + n ≤ cap →
      sendUpTo cap n tokens active = (tokens + n, active + n, true) := by
  induction n with
  | zero => intro tokens active _; simp [sendUpTo]
  | succ k ih =>
      intro tokens active h
      unfold sendUpTo
      rw [if_pos (by omega), ih (tokens + 1) (active + 1) (by omega)]
      simp only [Prod.mk.injEq]
      refine ⟨by omega, by omega, trivial⟩

/-- C1: evaluation of the monitor loop at the failing input. Worker w1's
heartbeat (time 0) is 100 seconds old, past the 30-second gate, and w1
holds task t1 in its Inbox and task t2 in its Processing bucket. The claim
says the coordinator re-injects every entry of both buckets into the
appropriate priority queue and deletes the per-worker buckets, losing no
task. The code instead: removes w1 from the live set and from Workers,
pushes the Inbox values onto the plain Redis list named tasks (which the
priority-queue distributor never reads), leaves every priority queue
untouched, and neither salvages nor deletes the Processing bucket. -/
theorem c1_salvage_lost :
    (monitorTick 100 c1State).live = [] ∧
    (monitorTick 100 c1State).store.workers = [] ∧
    (monitorTick 100 c1State).store.queues = [] ∧
    (monitorTick 100 c1State).store.tasksList = [sampleTask] ∧
    hGet (monitorTick 100 c1State).store.processing "w1"
      = some [("t2", { sampleTask with id := "t2" })] :=
  ⟨rfl, rfl, rfl, rfl, rfl⟩

/-- C2: evaluation of the reap loop at the failing input. Live worker w1's
Outbox holds a completed result for t1 and a terminally failed result for
t3, and task t2 is parked in Waiting on the dependency t1. The claim says
each reaped result is written into Results or FailedTasks on terminal
failure, and that Scheduler.OnComplete is invoked afterwards so waiting
dependents get enqueued. The code writes both results - the failed one
included - into the results hash, writes nothing to failed_tasks, and never
invokes OnTaskComplete: t2 stays in Waiting and no queue receives it. The
final conjunct shows that one OnTaskComplete call on the reaped id would
have released t2, so the missing invocation is what loses the release. -/
theorem c2_reap_never_notifies_scheduler :
    (collectResultsTick c2State).store.results = [("t1", resC), ("t3", resF)] ∧
    (collectResultsTick c2State).store.failed = [] ∧
    (collectResultsTick c2State).store.waiting = [("t2", task2dep)] ∧
    (collectResultsTick c2State).store.depWaiters = [("t1", ["t2"])] ∧
    (collectResultsTick c2State).store.queues = [] ∧
    hGet (collectResultsTick c2State).store.outboxes "w1" = some [] ∧
    (onTaskComplete 70 (collectResultsTick c2State).store "t1").waiting = [] :=
  ⟨rfl, rfl, rfl, rfl, rfl, rfl, rfl⟩

/-- C3: evaluation of the work stealer at the failing input. The stealer's
own Inbox already holds the id t1 (so the create-if-absent HSETNX reports
false), and the victim's Inbox holds t1, t2, t3 (more than 2, so stealing
triggers, and half of 3 is 1 attempted move). The claim says a failed
create-if-absent abandons the task without deleting it from the source.
The code tests only the transport error of HSETNX, which is nil, and so
deletes t1 from the victim's Inbox anyway - the steal loop ends with t1
gone from the source even though it was never written to the stealer. -/
theorem c3_steal_deletes_despite_failed_create :
    (hSetNX [("t1", sampleTask)] "t1" task1b).2 = false ∧
    stealFrom [("t1", sampleTask)] [("t1", task1b), ("t2", task2s), ("t3", task3s)]
      = ([("t1", sampleTask)], [("t2", task2s), ("t3", task3s)]) :=
  ⟨rfl, rfl⟩

/-- C4: evaluation of the executor at the failing input. Task tLate has
nextRetryAt = 1000, in the future of the execution instant 50, so
Task.ShouldProcess reports false. The claim says the executor treats such a
task as ineligible and pushes it back without execution. The executor's
receive path never consults nextRetryAt: it executes the task
unconditionally, emitting a completed result whose end time is the start
time plus the complexity sleep, and leaves nothing behind to re-queue. -/
theorem c4_ineligible_task_executed :
    shouldProcess 50 tLate = false ∧
    (processTaskStep "w1" 50 [] tLate).2.status = Status.completed ∧
    (processTaskStep "w1" 50 [] tLate).2.endTime = 52 ∧
    (processTaskStep "w1" 50 [] tLate).1 = [] :=
  ⟨rfl, rfl, rfl, rfl⟩

/-- C10: every result record the reference executor produces carries
terminal status completed and the executing worker's id; the execution stub
has no failure path, so no executor-produced result ever has status failed,
regardless of the task's type, payload, or retry state. -/
theorem c10_executor_results_completed (wid : String) (now : Int)
    (processing : List (String × Task)) (t : Task) :
    (processTaskStep wid now processing t).2.status = Status.completed ∧
    (processTaskStep wid now processing t).2.workerID = wid ∧
    (processTaskStep wid now processing t).2.status ≠ Status.failed :=
  ⟨rfl, rfl, by simp [processTaskStep]⟩

/-- C5: RetryTask fails (with the MaxRetriesExceeded error, writing
nothing) exactly when retryCount has reached maxRetries; otherwise it
increments the retry count, sets status pending, stamps updatedAt, sets
nextRetryAt to now plus 2 to the power of the incremented count in seconds,
re-enqueues the mutated task onto its priority queue with the ScheduleTask
score, preserves retryCount at most maxRetries, and leaves the waiting hash
alone. The hypothesis 0 ≤ retryCount reflects that the count is only ever
created at zero and incremented. -/
theorem c5_retry_backoff (now : Int) (s : Store) (t : Task)
    (h0 : 0 ≤ t.retryCount) :
    ((∃ e, retryTask now s t = Except.error e) ↔ t.maxRetries ≤ t.retryCount) ∧
    (∀ t' s', retryTask now s t = Except.ok (t', s') →
      t'.retryCount = t.retryCount + 1 ∧
      t'.status = Status.pending ∧
      t'.updatedAt = now ∧
      (∃ n : Nat, (n : Int) = t.retryCount + 1 ∧ t'.nextRetryAt = now + 2 ^ n) ∧
      t'.retryCount ≤ t'.maxRetries ∧
      s'.queues = (t'.priority, scoreOf now t'.deadline, t') :: s.queues ∧
      s'.waiting = s.waiting) := by
  by_cases hge : t.retryCount ≥ t.maxRetries
  · constructor
    · exact ⟨fun _ => hge, fun _ => ⟨"max retries exceeded", by
        unfold retryTask
        rw [if_pos hge]⟩⟩
    · intro t' s' heq
      unfold retryTask at heq
      rw [if_pos hge] at heq
      cases heq
  · constructor
    · constructor
      · rintro ⟨e, heq⟩
        unfold retryTask at heq
        rw [if_neg hge] at heq
        cases heq
      · intro hc
        exact absurd hc hge
    · intro t' s' heq
      unfold retryTask at heq
      rw [if_neg hge] at heq
      injection heq with hpair
      injection hpair with ht hs
      subst ht
      subst hs
      refine ⟨rfl, rfl, rfl, ⟨(t.retryCount + 1).toNat, by omega, rfl⟩, ?_, rfl, ?_⟩
      · show t.retryCount + 1 ≤ t.maxRetries
        omega
      · exact scheduleTask_waiting_nil _ _ _ _ rfl

/-- C5 witness: the theorem applied at time 100 to the empty store and a
task with one retry consumed out of three. -/
theorem c5_retry_backoff_witness :
    tRetryAfter.retryCount = tRetry.retryCount + 1 ∧
    tRetryAfter.status = Status.pending ∧
    tRetryAfter.updatedAt = 100 ∧
    (∃ n : Nat, (n : Int) = tRetry.retryCount + 1 ∧
        tRetryAfter.nextRetryAt = 100 + 2 ^ n) ∧
    tRetryAfter.retryCount ≤ tRetryAfter.maxRetries ∧
    sRetryAfter.queues
      = (tRetryAfter.priority, scoreOf 100 tRetryAfter.deadline, tRetryAfter)
          :: emptyStore.queues ∧
    sRetryAfter.waiting = emptyStore.waiting :=
  (c5_retry_backoff 100 emptyStore tRetry (by decide)).2 tRetryAfter sRetryAfter
    rfl

/-- C6 counterexample: the claim's ordering rationale is false of the
encoding the code (and the spec's own formula) uses. At time 0, scheduling
the imminent-deadline task (deadline 60) and then the distant-deadline task
(deadline 3600), both dependency-free at priority 5, puts the distant task
at the head of the queue: its score -3600 is lower than the imminent task's
-60, so the distant deadline pops first, not the imminent one. Likewise an
overdue task (score now - 1000000) sorts after any task whose deadline is
more than 1000000 seconds away (score below now - 1000000). -/
theorem c6_counterexample :
    (zMinEntry (qEntries storeC6 5)).map (fun e => e.2.id) = some "distant" ∧
    scoreOf 0 (some 3600) < scoreOf 0 (some 60) ∧
    scoreOf 0 (some 2000000) < scoreOf 0 (some (-1)) :=
  ⟨rfl, by decide, by decide⟩

/-- C6 (amended): ScheduleTask enqueues a dependency-free task with score
nowSeconds when there is no deadline, nowSeconds - 1000000 when the
deadline has already passed, and nowSeconds - seconds_until_deadline
otherwise; consequently, within a priority, overdue tasks precede
deadline-free tasks and tasks whose deadlines lie within 1000000 seconds,
while among not-yet-due tasks the more DISTANT deadline sorts first (the
subtracted bonus grows with the remaining time), not the imminent one. -/
theorem c6_score_encoding (now : Int) (s : Store) (t : Task)
    (opts : ScheduleOptions) (hdep : opts.dependencies = []) :
    (scheduleTask now s t opts).queues
      = ((applyOpts t opts).priority, scoreOf now (applyOpts t opts).deadline,
          applyOpts t opts) :: s.queues ∧
    scoreOf now none = now ∧
    (∀ d : Int, d < now → scoreOf now (some d) = now - 1000000) ∧
    (∀ d : Int, now ≤ d → scoreOf now (some d) = now - (d - now)) ∧
    (∀ d1 d2 : Int, d1 < now → now ≤ d2 → d2 - now < 1000000 →
        scoreOf now (some d1) < scoreOf now (some d2)) ∧
    (∀ d1 d2 : Int, now ≤ d1 → d1 < d2 →
        scoreOf now (some d2) < scoreOf now (some d1)) ∧
    (∀ d : Int, d < now → scoreOf now (some d) < scoreOf now none) := by
  refine ⟨?_, rfl, ?_, ?_, ?_, ?_, ?_⟩
  · dsimp only [scheduleTask]
    have : (applyOpts t opts).dependencies = [] := by
      simp [applyOpts, hdep]
    rw [this]
    rfl
  · intro d hd
    simp only [scoreOf]
    rw [if_pos (by omega)]
  · intro d hd
    simp only [scoreOf]
    rw [if_neg (by omega)]
  · intro d1 d2 h1 h2 h3
    simp only [scoreOf]
    rw [if_pos (by omega), if_neg (by omega)]
    omega
  · intro d1 d2 h1 h2
    simp only [scoreOf]
    rw [if_neg (by omega), if_neg (by omega)]
    omega
  · intro d hd
    simp only [scoreOf]
    rw [if_pos (by omega)]
    omega

/-- C6 witness: the amended theorem applied at time 0 to the empty store
with the priority-5 imminent-deadline options, plus its score clauses at
the concrete deadlines -5, 60 and 3600. -/
theorem c6_score_encoding_witness :
    (scheduleTask 0 emptyStore sampleTask optsImm).queues
      = ((applyOpts sampleTask optsImm).priority,
          scoreOf 0 (applyOpts sampleTask optsImm).deadline,
          applyOpts sampleTask optsImm) :: emptyStore.queues ∧
    scoreOf 0 (some (-5)) = 0 - 1000000 ∧
    scoreOf 0 (some (-5)) < scoreOf 0 (some 60) ∧
    scoreOf 0 (some 3600) < scoreOf 0 (some 60) ∧
    scoreOf 0 (some (-5)) < scoreOf 0 none := by
  have h := c6_score_encoding 0 emptyStore sampleTask optsImm rfl
  exact ⟨h.1, h.2.2.1 (-5) (by decide),
    h.2.2.2.2.1 (-5) 60 (by decide) (by decide) (by decide),
    h.2.2.2.2.2.1 60 3600 (by decide) (by decide),
    h.2.2.2.2.2.2 (-5) (by decide)⟩

/-- C7: the dependency gate. First part - when ScheduleTask meets a task
one of whose dependency ids is absent from the results hash, it records the
task under the waiting hash keyed by its id, registers the id under the
dependency-waiters set of every dependency, and enqueues nothing. Second
part - across every scheduler-visible operation (schedule, completion
processing, retry, and the coordinator's reap write into results), a task
leaves the waiting hash only when every one of its recorded dependencies is
already present in the results hash, so a parked task is never released -
and in particular never re-enqueued - before all its dependencies have
results. -/
theorem c7_dependency_gate :
    (∀ (now : Int) (s : Store) (t : Task) (opts : ScheduleOptions) (d0 : String),
        d0 ∈ (applyOpts t opts).dependencies →
        hContains s.results d0 = false →
        (scheduleTask now s t opts).waiting
            = hSet s.waiting (applyOpts t opts).id (applyOpts t opts) ∧
        (∀ d, d ∈ (applyOpts t opts).dependencies →
            (applyOpts t opts).id
              ∈ sMembers (scheduleTask now s t opts).depWaiters d) ∧
        (scheduleTask now s t opts).queues = s.queues) ∧
    (∀ (op : SchedOp) (s : Store) (id : String) (t : Task),
        hGet s.waiting id = some t →
        hGet (applySchedOp op s).waiting id = none →
        t.dependencies.all (fun d => hContains s.results d) = true) := by
  constructor
  · intro now s t opts d0 hd0 hmiss
    have hany : ((applyOpts t opts).dependencies.any
        (fun d => !(hContains s.results d))) = true := by
      rw [List.any_eq_true]
      exact ⟨d0, hd0, by rw [hmiss]; rfl⟩
    have hsched : scheduleTask now s t opts
        = scheduleDependentTask s (applyOpts t opts) := by
      dsimp only [scheduleTask]
      rw [if_pos hany]
    rw [hsched]
    refine ⟨rfl, ?_, rfl⟩
    intro d hd
    exact mem_foldl_sAdd _ _ _ _ hd
  · intro op s id t hin hout
    cases op with
    | schedule now2 t0 opts =>
        dsimp only [applySchedOp] at hout
        by_cases hany : ((applyOpts t0 opts).dependencies.any
            (fun d => !(hContains s.results d))) = true
        · have hw : (scheduleTask now2 s t0 opts).waiting
              = hSet s.waiting (applyOpts t0 opts).id (applyOpts t0 opts) := by
            dsimp only [scheduleTask]
            rw [if_pos hany]
            rfl
          rw [hw, hGet_hSet] at hout
          split_ifs at hout
          rw [hin] at hout
          cases hout
        · have hw : (scheduleTask now2 s t0 opts).waiting = s.waiting := by
            dsimp only [scheduleTask]
            rw [if_neg hany]
          rw [hw, hin] at hout
          cases hout
    | complete now2 tid =>
        dsimp only [applySchedOp] at hout
        exact releaseWaiters_gate now2 (sMembers s.depWaiters tid) s id t hin hout
    | retry now2 t0 =>
        have hw : (applySchedOp (SchedOp.retry now2 t0) s).waiting = s.waiting := by
          dsimp only [applySchedOp]
          unfold retryTask
          by_cases hge : t0.retryCount ≥ t0.maxRetries
          · rw [if_pos hge]
          · rw [if_neg hge]
            exact scheduleTask_waiting_nil _ _ _ _ rfl
        rw [hw, hin] at hout
        cases hout
    | reap tid r =>
        cases hin.symm.trans hout

/-- C7 witness: the first part applied to scheduling, at time 50 into the
empty store, a task whose options carry the unmet dependency a; the second
part applied to the completion of t1 in a store where t2 waits on t1 and
t1's result is present, which is exactly the step that releases t2. -/
theorem c7_dependency_gate_witness :
    ((scheduleTask 50 emptyStore sampleTask optsDep).waiting
        = hSet emptyStore.waiting (applyOpts sampleTask optsDep).id
            (applyOpts sampleTask optsDep) ∧
      (∀ d, d ∈ (applyOpts sampleTask optsDep).dependencies →
          (applyOpts sampleTask optsDep).id
            ∈ sMembers (scheduleTask 50 emptyStore sampleTask optsDep).depWaiters d) ∧
      (scheduleTask 50 emptyStore sampleTask optsDep).queues = emptyStore.queues) ∧
    task2dep.dependencies.all (fun d => hContains sWait.results d) = true :=
  ⟨c7_dependency_gate.1 50 emptyStore sampleTask optsDep "a" (by decide) rfl,
   c7_dependency_gate.2 (SchedOp.complete 70 "t1") sWait "t2" task2dep rfl rfl⟩

/-- C8 counterexample: the HTTP submission path does not use the
scheduler's score encoding. Submitting A (deadline 60 seconds ahead) at
time 1000 and then the already-overdue B (deadline 999) at time 1001
stores B with score 1001 - the bare submission time - although the section
4.1 encoding would give 1001 - 1000000; the head of the priority-5 queue is
then A, so the overdue B is not assigned before A, contradicting the
claim. -/
theorem c8_counterexample :
    storeC8.queues = [(5, 1001, mkSubmittedTask 1001 "B" reqB),
                      (5, 1000, mkSubmittedTask 1000 "A" reqA)] ∧
    (zMinEntry (qEntries storeC8 5)).map (fun e => e.2.id) = some "A" ∧
    specSubmitScore 1001 (some 999) = 1001 - 1000000 ∧
    (1001 : Int) ≠ 1001 - 1000000 :=
  ⟨rfl, rfl, rfl, by decide⟩

/-- C8 (amended): a task submitted through POST /api/tasks/submit is
inserted into its priority queue with score equal to the bare submission
time nowSeconds, whatever its deadline - not the section 4.1 encoding - so
within one priority HTTP-submitted tasks are assigned in submission order:
the earlier-submitted task is at the head regardless of either deadline. -/
theorem c8_submit_plain_score :
    (∀ (now : Int) (newId : String) (s : Store) (req : SubmitTaskRequest),
        (handleSubmitTask now newId s req).queues
          = (req.priority, now, mkSubmittedTask now newId req) :: s.queues) ∧
    (∀ (now1 now2 : Int) (id1 id2 : String) (req1 req2 : SubmitTaskRequest),
        req2.priority = req1.priority → now1 < now2 →
        zMinEntry (qEntries (handleSubmitTask now2 id2
            (handleSubmitTask now1 id1 emptyStore req1) req2) req1.priority)
          = some (now1, mkSubmittedTask now1 id1 req1)) := by
  constructor
  · intro now newId s req
    rfl
  · intro now1 now2 id1 id2 req1 req2 hp hlt
    have hq : qEntries (handleSubmitTask now2 id2
        (handleSubmitTask now1 id1 emptyStore req1) req2) req1.priority
        = [(now2, mkSubmittedTask now2 id2 req2),
           (now1, mkSubmittedTask now1 id1 req1)] := by
      show ((((req2.priority, now2, mkSubmittedTask now2 id2 req2) ::
          (req1.priority, now1, mkSubmittedTask now1 id1 req1) :: []).filter
            (fun e => e.1 = req1.priority)).map (fun e => e.2))
          = [(now2, mkSubmittedTask now2 id2 req2),
             (now1, mkSubmittedTask now1 id1 req1)]
      rw [hp]
      simp
    rw [hq]
    have h2 : zMinEntry [(now2, mkSubmittedTask now2 id2 req2),
        (now1, mkSubmittedTask now1 id1 req1)]
        = if now2 ≤ now1 then some (now2, mkSubmittedTask now2 id2 req2)
          else some (now1, mkSubmittedTask now1 id1 req1) := rfl
    rw [h2, if_neg (by omega)]

/-- C8 witness: the amended theorem applied to the concrete submissions A
(time 1000, distant deadline) and then B (time 1001, overdue deadline) at
priority 5. -/
theorem c8_submit_plain_score_witness :
    (handleSubmitTask 1000 "A" emptyStore reqA).queues
      = (reqA.priority, 1000, mkSubmittedTask 1000 "A" reqA) :: emptyStore.queues ∧
    zMinEntry (qEntries (handleSubmitTask 1001 "B"
        (handleSubmitTask 1000 "A" emptyStore reqA) reqB) reqA.priority)
      = some (1000, mkSubmittedTask 1000 "A" reqA) :=
  ⟨c8_submit_plain_score.1 1000 "A" emptyStore reqA,
   c8_submit_plain_score.2 1000 1001 "A" "B" reqA reqB rfl (by decide)⟩

/-- C9: every adjustment of the autoscaler keeps the executor count within
the configured bounds. Under the pool-channel sync invariant (channel
occupancy equals the active count) and counts initially in bounds: the
adjusted count stays within minWorkers and maxWorkers; it grows by at most
2, and only when queueLength exceeds twice the active count with active
below maxWorkers; it shrinks only by exactly 1, and only when idle exceeds
minWorkers / 2 with active above minWorkers - so the pool never drops below
minWorkers; inside the 30-second cooldown nothing changes at all; any
change restamps the cooldown clock; and the sync invariant is preserved. -/
theorem c9_autoscaler_bounds (cfg : ScalerCfg) (now : Int) (s : ScalerState)
    (h1 : cfg.minWorkers ≤ s.active) (h2 : s.active ≤ cfg.maxWorkers)
    (h3 : s.poolTokens = s.active) :
    (cfg.minWorkers ≤ (adjust cfg now s).active ∧
      (adjust cfg now s).active ≤ cfg.maxWorkers) ∧
    (adjust cfg now s).active ≤ s.active + 2 ∧
    (s.active < (adjust cfg now s).active →
      s.queueLength > s.active * 2 ∧ s.active < cfg.maxWorkers) ∧
    ((adjust cfg now s).active < s.active →
      s.active = (adjust cfg now s).active + 1 ∧
      s.idle > cfg.minWorkers / 2 ∧ cfg.minWorkers < s.active) ∧
    (now - s.lastScaling < 30 → adjust cfg now s = s) ∧
    ((adjust cfg now s).active ≠ s.active → (adjust cfg now s).lastScaling = now) ∧
    (adjust cfg now s).poolTokens = (adjust cfg now s).active := by
  by_cases hcool : now - s.lastScaling < 30
  · have hres : adjust cfg now s = s := by
      unfold adjust
      rw [if_pos hcool]
    rw [hres]
    exact ⟨⟨h1, h2⟩, by omega, by omega, by omega, fun _ => rfl,
      fun hne => absurd rfl hne, h3⟩
  · by_cases hup : s.queueLength > s.active * 2 ∧ s.active < cfg.maxWorkers
    · have hres : adjust cfg now s
          = { s with
              poolTokens := s.poolTokens + min (cfg.maxWorkers - s.active) 2
              active := s.active + min (cfg.maxWorkers - s.active) 2
              lastScaling := now } := by
        simp only [adjust]
        rw [if_neg hcool, if_pos hup,
          sendUpTo_eq cfg.maxWorkers (min (cfg.maxWorkers - s.active) 2)
            s.poolTokens s.active (by omega), if_pos rfl]
      obtain ⟨hq, hm⟩ := hup
      have ha : (adjust cfg now s).active
          = s.active + min (cfg.maxWorkers - s.active) 2 := by rw [hres]
      have hl : (adjust cfg now s).lastScaling = now := by rw [hres]
      have hpk : (adjust cfg now s).poolTokens
          = s.poolTokens + min (cfg.maxWorkers - s.active) 2 := by rw [hres]
      refine ⟨⟨by omega, by omega⟩, by omega, fun _ => ⟨hq, hm⟩, by omega,
        fun hc => absurd hc hcool, fun _ => hl, by omega⟩
    · by_cases hdown : s.idle > cfg.minWorkers / 2 ∧ s.active > cfg.minWorkers
      · have hres : adjust cfg now s
            = { s with
                poolTokens := s.poolTokens - 1
                active := s.active - 1
                lastScaling := now } := by
          unfold adjust
          rw [if_neg hcool, if_neg hup, if_pos hdown, if_pos (by omega)]
        obtain ⟨hi, hm⟩ := hdown
        have ha : (adjust cfg now s).active = s.active - 1 := by rw [hres]
        have hl : (adjust cfg now s).lastScaling = now := by rw [hres]
        have hpk : (adjust cfg now s).poolTokens = s.poolTokens - 1 := by rw [hres]
        refine ⟨⟨by omega, by omega⟩, by omega, by omega,
          fun _ => ⟨by omega, hi, hm⟩, fun hc => absurd hc hcool,
          fun _ => hl, by omega⟩
      · have hres : adjust cfg now s = s := by
          unfold adjust
          rw [if_neg hcool, if_neg hup, if_neg hdown]
        rw [hres]
        exact ⟨⟨h1, h2⟩, by omega, by omega, by omega,
          fun _ => rfl, fun hne => absurd rfl hne, h3⟩

/-- C9 witness: the theorem applied to the configuration (min 1, max 10)
and the state with 2 active executors, matching pool occupancy, queue depth
5 and an expired cooldown, at time 100. -/
theorem c9_autoscaler_bounds_witness :
    (cfgSample.minWorkers ≤ (adjust cfgSample 100 scalerSample).active ∧
      (adjust cfgSample 100 scalerSample).active ≤ cfgSample.maxWorkers) ∧
    (adjust cfgSample 100 scalerSample).active ≤ scalerSample.active + 2 ∧
    (scalerSample.active < (adjust cfgSample 100 scalerSample).active →
      scalerSample.queueLength > scalerSample.active * 2 ∧
      scalerSample.active < cfgSample.maxWorkers) ∧
    ((adjust cfgSample 100 scalerSample).active < scalerSample.active →
      scalerSample.active = (adjust cfgSample 100 scalerSample).active + 1 ∧
      scalerSample.idle > cfgSample.minWorkers / 2 ∧
      cfgSample.minWorkers < scalerSample.active) ∧
    ((100 : Int) - scalerSample.lastScaling < 30 →
      adjust cfgSample 100 scalerSample = scalerSample) ∧
    ((adjust cfgSample 100 scalerSample).active ≠ scalerSample.active →
      (adjust cfgSample 100 scalerSample).lastScaling = 100) ∧
    (adjust cfgSample 100 scalerSample).poolTokens
      = (adjust cfgSample 100 scalerSample).active :=
  c9_autoscaler_bounds cfgSample 100 scalerSample (by decide) (by decide) (by decide)

end DTPS
